import Mathlib

/-!
Shallow embedding of the PDF-merge core of the CompSciCourseWorkCollator
repository (Google Apps Script), for checking its natural-language
specification.

Modelling conventions, shared by all definitions below:

* A Drive file is a record of its id (opaque identifier, modelled as `Nat`),
  name, MIME type and content.  The content of a page-bearing document is
  modelled as the ordered list of its pages; a page itself is opaque and
  represented by a `Nat` token.  The serialized byte string produced by
  `pdfDoc.save()` is abstracted as the page sequence it encodes (a saved PDF
  additionally always carries a nonempty header, see `byteLength`).
* Google Drive is modelled as an ordered list of (parent folder id, file,
  trashed flag) entries plus a fresh-id counter.  `createFile`/`makeCopy`
  append at the end, `setTrashed` flips the flag; a folder's file iterator
  enumerates untrashed entries in list order.
* External nondeterminism is passed in as explicit oracles:
  `decodeOk` says whether `PDFLib.PDFDocument.load` succeeds on a given file,
  `saveOk` whether `pdfDoc.save()` succeeds on the accumulated page sequence,
  and UI answers to the replace-existing-file prompt are a `Bool` parameter.
* JavaScript exceptions are modelled with `Except String`; a `try`/`catch`
  block becomes a `match` on the `Except` value.
-/

namespace CW

/-- A Drive file: opaque id, display name, MIME type, and page content. -/
structure DriveFile where
  id : Nat
  name : String
  mimeType : String
  pages : List Nat
  deriving DecidableEq, Repr

/-- One entry of the Drive state: the parent folder the file lives in,
the file itself, and whether it has been moved to the trash. -/
structure FEntry where
  parent : String
  file : DriveFile
  trashed : Bool
  deriving DecidableEq, Repr

/-- The modelled Drive state: entries in creation order plus a fresh-id
counter used for newly created files. -/
structure Drive where
  entries : List FEntry
  nextId : Nat
  deriving DecidableEq, Repr

/-- `DriveApp.getFileById`: look a file up by id; throws when absent.
Trashed files remain retrievable by id in Drive. -/
def Drive.getFileById (d : Drive) (i : Nat) : Except String DriveFile :=
  match d.entries.find? (fun e => e.file.id == i) with
  | some e => .ok e.file
  | none => .error "File not found"

/-- `folder.getFilesByName(name)`: the untrashed files of a folder bearing a
given name, in Drive order. -/
def Drive.getFilesByName (d : Drive) (folderId : String) (nm : String) : List DriveFile :=
  (d.entries.filter (fun e => e.parent == folderId && e.file.name == nm && !e.trashed)).map
    (fun e => e.file)

/-- `folder.createFile(blob)`: create a fresh file from a blob in a folder. -/
def Drive.createFile (d : Drive) (folderId : String) (nm : String) (mime : String)
    (pgs : List Nat) : DriveFile × Drive :=
  let f : DriveFile := ⟨d.nextId, nm, mime, pgs⟩
  (f, ⟨d.entries ++ [⟨folderId, f, false⟩], d.nextId + 1⟩)

/-- `file.makeCopy(newName, folder)`: copy a file (same MIME type and pages)
into a folder under a new name. -/
def Drive.makeCopy (d : Drive) (f : DriveFile) (newName : String) (folderId : String) :
    DriveFile × Drive :=
  d.createFile folderId newName f.mimeType f.pages

/-- `file.setTrashed(true)`: mark every entry carrying the given file id as
trashed.  Modelled as total (the external call is assumed to succeed, so the
per-file catch around it in the source is dead in the model). -/
def trashFile (d : Drive) (fid : Nat) : Drive :=
  ⟨d.entries.map (fun e => if e.file.id == fid then { e with trashed := true } else e), d.nextId⟩

/-- Trash a list of files one after the other (the cleanup `forEach` loops of
`PDFMerger.processPDFsInBatches` and the replacement loop of
`DriveManager.checkAndHandleExistingFile`). -/
def trashAll (fs : List DriveFile) (d : Drive) : Drive :=
  fs.foldl (fun dd f => trashFile dd f.id) d

/-- `DriveManager.isPdf`: MIME-type test for PDF files. -/
def isPdf (f : DriveFile) : Bool :=
  f.mimeType == "application/pdf"

/-- An element of the `items` argument of the singleton
`PDFMerger.validateFiles`: a file-id string, a `File` object, or anything
else (which the source rejects with a thrown error it then catches). -/
inductive Item where
  | byId (i : Nat)
  | byFile (f : DriveFile)
  | other
  deriving DecidableEq, Repr

/-- An `invalidFiles` record produced by `PDFMerger.validateFiles`: either a
resolvable file of the wrong MIME type `{id, name, type}`, or a caught
resolution error `{id, error}` (the id is `none` when the source records the
placeholder string for a non-string item). -/
inductive InvalidEntry where
  | wrongType (id : Option Nat) (name : String) (mime : String)
  | err (id : Option Nat) (msg : String)
  deriving DecidableEq, Repr

/-- The body of the `items.forEach` loop of `PDFMerger.validateFiles`
(singleton variant): push the item's file onto `validFiles` when it resolves
to a PDF, otherwise push the corresponding record onto `invalidFiles`. -/
def validateStep (resolve : Nat → Except String DriveFile)
    (acc : List DriveFile × List InvalidEntry) (item : Item) :
    List DriveFile × List InvalidEntry :=
  match item with
  | .byId i =>
    match resolve i with
    | .error msg => (acc.1, acc.2 ++ [.err (some i) msg])
    | .ok f =>
      if isPdf f then (acc.1 ++ [f], acc.2)
      else (acc.1, acc.2 ++ [.wrongType (some i) f.name f.mimeType])
  | .byFile f =>
    if isPdf f then (acc.1 ++ [f], acc.2)
    else (acc.1, acc.2 ++ [.wrongType (some f.id) f.name f.mimeType])
  | .other =>
    (acc.1, acc.2 ++ [.err none "Invalid item type: must be a file ID string or File object"])

/-- `PDFMerger.validateFiles` (singleton variant, src/unnamed/part_004
lines 499-551): partition the input items into PDF files and invalid
records.  `resolve` stands for `DriveApp.getFileById`, whose thrown error
message is carried in the `Except`. -/
def validateFiles (resolve : Nat → Except String DriveFile) (items : List Item) :
    List DriveFile × List InvalidEntry :=
  items.foldl (validateStep resolve) ([], [])

/-- Resolution of a single item to a file, ignoring validity (spec-side
helper used to state what `validateFiles` computes). -/
def resolveItem (resolve : Nat → Except String DriveFile) : Item → Option DriveFile
  | .byId i => (resolve i).toOption
  | .byFile f => some f
  | .other => none

/-- Spec-side characterisation: the file an item contributes to
`validFiles`, if any. -/
def validOf (resolve : Nat → Except String DriveFile) (it : Item) : Option DriveFile :=
  match resolveItem resolve it with
  | some f => if isPdf f then some f else none
  | none => none

/-- Spec-side characterisation: the record an item contributes to
`invalidFiles`, if any. -/
def invalidOf (resolve : Nat → Except String DriveFile) (it : Item) : Option InvalidEntry :=
  match it with
  | .byId i =>
    match resolve i with
    | .error msg => some (.err (some i) msg)
    | .ok f => if isPdf f then none else some (.wrongType (some i) f.name f.mimeType)
  | .byFile f => if isPdf f then none else some (.wrongType (some f.id) f.name f.mimeType)
  | .other => some (.err none "Invalid item type: must be a file ID string or File object")

/-- The in-memory result of `pdfDoc.save()`: the page sequence the
serialized bytes encode. -/
structure PdfData where
  pages : List Nat
  deriving DecidableEq, Repr

/-- Length of the serialized byte string of a saved PDF.  A saved document
always carries a nonempty header in front of its page objects, so the length
is modelled as one more than the page count; in particular it is never 0. -/
def byteLength (p : PdfData) : Nat :=
  p.pages.length + 1

/-- The page-accumulation loop of `PDFMerger.mergeMultiplePdfFiles`
(src/unnamed/part_004 lines 614-641): for each file, decode it, copy its
pages 0..pageCount-1 in order, and append them to the output document; a
per-file decode failure is caught and logged (`console.error`), dropping
only that file's pages.  Returns the accumulated pages together with the
names of the files whose decode failed (the error log). -/
def pageStep (decodeOk : DriveFile → Bool) (acc : List Nat × List String)
    (f : DriveFile) : List Nat × List String :=
  if decodeOk f then (acc.1 ++ f.pages, acc.2) else (acc.1, acc.2 ++ [f.name])

/-- The accumulated pages and decode-error log of the loop of
`mergeMultiplePdfFiles`. -/
def mergePages (decodeOk : DriveFile → Bool) (files : List DriveFile) :
    List Nat × List String :=
  files.foldl (pageStep decodeOk) ([], [])

/-- `PDFMerger.mergeMultiplePdfFiles` (singleton variant, src/unnamed/part_004
lines 604-659): accumulate all pages, then `pdfDoc.save()`; a save failure is
re-thrown to the caller.  The second component is the decode-error log. -/
def mergeMultiplePdfFiles (decodeOk : DriveFile → Bool) (saveOk : List Nat → Bool)
    (files : List DriveFile) : Except String PdfData × List String :=
  let r := mergePages decodeOk files
  if saveOk r.1 then (.ok ⟨r.1⟩, r.2) else (.error "Error saving merged PDF", r.2)

/-- Fuel-driven helper for `chunkFiles`: each step slices one batch off the
front of the list; one unit of fuel is spent per batch, and every batch
consumes at least one element, so fuel `l.length` always suffices. -/
def chunkFuel (B : Nat) : Nat → List DriveFile → List (List DriveFile)
  | 0, _ => []
  | _, [] => []
  | fuel + 1, f :: rest => (f :: rest.take (B - 1)) :: chunkFuel B fuel (rest.drop (B - 1))

/-- The batch slicing of `processPDFsInBatches`:
`for (let i = 0; i < files.length; i += batchSize) slice(i, i+batchSize)`.
Faithful to the source for `B ≥ 1` (for `B = 0` the JavaScript loop would
not terminate; this model then yields singleton chunks). -/
def chunkFiles (B : Nat) (l : List DriveFile) : List (List DriveFile) :=
  chunkFuel B l.length l

/-- The temporary-file name used by `processPDFsInBatches`:
`temp_batch_${batchNo}_of_${totalBatches}.pdf`. -/
def tempName (i total : Nat) : String :=
  "temp_batch_" ++ toString i ++ "_of_" ++ toString total ++ ".pdf"

/-- Spec-side description of the temporary files a fully successful batching
run creates: the `k`-th batch is saved as a fresh PDF file holding that
batch's concatenated pages, named with batch number `i + k` and id `n + k`. -/
def tempsSpec (total : Nat) : Nat → Nat → List (List DriveFile) → List DriveFile
  | _, _, [] => []
  | i, n, b :: bs =>
    ⟨n, tempName i total, "application/pdf", (b.map (fun f => f.pages)).flatten⟩ ::
      tempsSpec total (i + 1) (n + 1) bs

/-- The batch loop of `PDFMerger.processPDFsInBatches` (src/unnamed/part_004
lines 681-700): merge each batch, store the result as a temporary PDF file in
`tp` (the destination folder or its root fallback), and collect the temporary
files; if a batch merge throws, the enclosing catch trashes the temporaries
created so far and re-throws. -/
def batchLoop (decodeOk : DriveFile → Bool) (saveOk : List Nat → Bool) (tp : String)
    (total : Nat) :
    List (List DriveFile) → Nat → List DriveFile → List String → Drive →
      Except String (List DriveFile) × Drive × List String
  | [], _, temps, log, d => (.ok temps, d, log)
  | b :: bs, i, temps, log, d =>
    match mergeMultiplePdfFiles decodeOk saveOk b with
    | (.error e, lg) => (.error e, trashAll temps d, log ++ lg)
    | (.ok data, lg) =>
      let c := d.createFile tp (tempName i total) "application/pdf" data.pages
      batchLoop decodeOk saveOk tp total bs (i + 1) (temps ++ [c.1]) (log ++ lg) c.2

/-- `PDFMerger.processPDFsInBatches` (src/unnamed/part_004 lines 667-733):
at most `B` files are merged directly; otherwise the files are merged in
sequential batches of `B`, the temporary batch outputs are merged together,
and every temporary file is trashed whether or not that final merge
succeeded. -/
def processPDFsInBatchesSt (decodeOk : DriveFile → Bool) (saveOk : List Nat → Bool)
    (B : Nat) (files : List DriveFile) (tp : String) (d : Drive) :
    Except String PdfData × Drive × List String :=
  if files.length ≤ B then
    let r := mergeMultiplePdfFiles decodeOk saveOk files
    (r.1, d, r.2)
  else
    let total := (files.length + B - 1) / B
    match batchLoop decodeOk saveOk tp total (chunkFiles B files) 1 [] [] d with
    | (.error e, d₁, lg) => (.error e, d₁, lg)
    | (.ok temps, d₁, lg) =>
      let r := mergeMultiplePdfFiles decodeOk saveOk temps
      (r.1, trashAll temps d₁, lg ++ r.2)

/-- `DriveManager.checkAndHandleExistingFile` (src/DriveManager.js lines
95-116): if a file of the target name already exists in the folder, ask the
user whether to replace; YES trashes every existing same-named file and
proceeds (`true`), NO skips (`false`); with no collision, proceed.
`replaceChoice` is the user's answer to the prompt. -/
def checkAndHandleExistingFile (replaceChoice : Bool) (folderId : String)
    (newFileName : String) (d : Drive) : Bool × Drive :=
  let existing := d.getFilesByName folderId newFileName
  if existing.isEmpty then (true, d)
  else if replaceChoice then (true, trashAll existing d)
  else (false, d)

/-- `DriveManager.copyAndRenameFile` (src/DriveManager.js lines 302-318):
resolve the source file (throwing when absent), apply the collision policy,
then either copy under the new name (`some file`) or skip (`none`). -/
def copyAndRenameFile (replaceChoice : Bool) (fileId : Nat) (folderId : String)
    (newFileName : String) (d : Drive) : Except String (Option DriveFile) × Drive :=
  match d.getFileById fileId with
  | .error e => (.error e, d)
  | .ok f =>
    match checkAndHandleExistingFile replaceChoice folderId newFileName d with
    | (true, d₁) =>
      let c := d₁.makeCopy f newFileName folderId
      (.ok (some c.1), c.2)
    | (false, d₁) => (.ok none, d₁)

/-- `effectiveOutputFolder = outputFolder || this.destinationFolder`. -/
def effectiveFolder (outputFolder destinationFolder : Option String) : Option String :=
  match outputFolder with
  | some f => some f
  | none => destinationFolder

/-- The result object of `PDFMerger.mergePDFs` and friends: `{success,
message, file, invalidFiles}` (the JS `file` field carries id/name/url; the
absent or `null` `invalidFiles` is modelled as the empty list). -/
structure MergeOutcome where
  success : Bool
  message : String
  file : Option (Nat × String)
  invalidFiles : List InvalidEntry
  deriving DecidableEq, Repr

/-- `PDFMerger.copySinglePdfFile` (singleton variant, src/unnamed/part_004
lines 560-597): with an effective destination folder, delegate to
`DriveManager.copyAndRenameFile` (ignoring its return value) and look the
copy up again by name; otherwise copy to the Drive root.  Exceptions from
the delegate propagate to the caller's catch. -/
def copySinglePdfFile (replaceChoice : Bool) (f : DriveFile) (outputFileName : String)
    (outputFolder destinationFolder : Option String) (d : Drive) :
    Except String MergeOutcome × Drive :=
  match effectiveFolder outputFolder destinationFolder with
  | some folderId =>
    match copyAndRenameFile replaceChoice f.id folderId outputFileName d with
    | (.error e, d₁) => (.error e, d₁)
    | (.ok _, d₁) =>
      match d₁.getFilesByName folderId outputFileName with
      | nf :: _ =>
        (.ok { success := true,
               message := "Successfully copied the PDF file (skipped merging as only one file was found)",
               file := some (nf.id, nf.name), invalidFiles := [] }, d₁)
      | [] =>
        (.ok { success := false, message := "Failed to copy the PDF file: " ++ f.name,
               file := none, invalidFiles := [] }, d₁)
  | none =>
    let c := d.makeCopy f outputFileName "root"
    (.ok { success := true,
           message := "Successfully copied the PDF file (skipped merging as only one file was found)",
           file := some (c.1.id, c.1.name), invalidFiles := [] }, c.2)

/-- `PDFMerger.saveResultingPdf` (singleton variant, src/unnamed/part_004
lines 742-772): write the merged bytes as a fresh PDF file in the effective
output folder, or in the Drive root when none is set. -/
def saveResultingPdf (data : PdfData) (outputFileName : String)
    (outputFolder destinationFolder : Option String) (d : Drive) :
    (Nat × String) × Drive :=
  let folderId := (effectiveFolder outputFolder destinationFolder).getD "root"
  let c := d.createFile folderId outputFileName "application/pdf" data.pages
  ((c.1.id, c.1.name), c.2)

/-- `PDFMerger.mergePDFs` (singleton variant, src/unnamed/part_004 lines
781-866): validate, handle the zero- and one-valid-file degenerate cases,
merge directly for at most 10 valid files and via `processPDFsInBatches`
with batch size 5 for more, guard against empty result bytes, then save.
Thrown errors are caught and turned into a failure result.  Returns the
result object, the final Drive state, and the decode-error log. -/
def mergePDFs (decodeOk : DriveFile → Bool) (saveOk : List Nat → Bool)
    (replaceChoice : Bool) (items : List Item) (outputFileName : String)
    (outputFolder destinationFolder : Option String) (d : Drive) :
    MergeOutcome × Drive × List String :=
  let v := validateFiles d.getFileById items
  match v.1 with
  | [] =>
    ({ success := false, message := "No valid PDF files found to merge",
       file := none, invalidFiles := v.2 }, d, [])
  | [f] =>
    match copySinglePdfFile replaceChoice f outputFileName outputFolder destinationFolder d with
    | (.ok out, d₁) =>
      ((if v.2.isEmpty then out else { out with invalidFiles := v.2 }), d₁, [])
    | (.error e, d₁) =>
      ({ success := false, message := "Error merging PDFs: " ++ e,
         file := none, invalidFiles := [] }, d₁, [])
  | _ :: _ :: _ =>
    let r :=
      if v.1.length > 10 then
        processPDFsInBatchesSt decodeOk saveOk 5 v.1 (destinationFolder.getD "root") d
      else
        let m := mergeMultiplePdfFiles decodeOk saveOk v.1
        (m.1, d, m.2)
    match r with
    | (.error e, d₁, lg) =>
      ({ success := false, message := "Error merging PDFs: " ++ e,
         file := none, invalidFiles := [] }, d₁, lg)
    | (.ok data, d₁, lg) =>
      if byteLength data = 0 then
        ({ success := false, message := "Failed to create merged PDF - no data returned",
           file := none, invalidFiles := v.2 }, d₁, lg)
      else
        let s := saveResultingPdf data outputFileName outputFolder destinationFolder d₁
        ({ success := true,
           message := "Successfully merged " ++ toString v.1.length ++ " PDFs",
           file := some s.1, invalidFiles := v.2 }, s.2, lg)

/-- A folder with its files (in iterator order) and subfolders, as traversed
by `DriveManager.findFilesBySubstring`. -/
inductive FolderTree where
  | node (files : List DriveFile) (subs : List FolderTree)

/-- The `searchType` argument of `findFilesBySubstring`: match a substring
at the start of the file name, at its end, or anywhere inside (the source's
`'prefix'`, `'suffix'` and `'contains'`/default cases). -/
inductive SearchType where
  | pfx
  | sfx
  | sub
  deriving DecidableEq, Repr

/-- `fileName.includes(substring)`: occurrence anywhere in the name. -/
def strIncludes (s sub : String) : Bool :=
  s.toList.tails.any (fun t => sub.toList.isPrefixOf t)

/-- The `switch (searchType)` of `findFilesBySubstring`: `startsWith`,
`endsWith` or `includes` on the file name. -/
def matchName (st : SearchType) (nm sub : String) : Bool :=
  match st with
  | .pfx => sub.toList.isPrefixOf nm.toList
  | .sfx => sub.toList.isSuffixOf nm.toList
  | .sub => strIncludes nm sub

/-- The `mimeTypes` filter of `findFilesBySubstring`: pass everything when
`none`, otherwise require membership. -/
def mimeOk (mimeTypes : Option (List String)) (f : DriveFile) : Bool :=
  match mimeTypes with
  | none => true
  | some ms => ms.contains f.mimeType

/-- The combined per-(substring, file) test of the inner loop: name match by
`searchType`, then the optional MIME filter. -/
def fileMatches (st : SearchType) (mimeTypes : Option (List String)) (sub : String)
    (f : DriveFile) : Bool :=
  matchName st f.name sub && mimeOk mimeTypes f

mutual

/-- The `getAllFiles` closure of `findFilesBySubstring`: all files of the
folder in iterator order, followed (when `recursive`) by those of each
subfolder in turn. -/
def getAllFiles (recursive : Bool) : FolderTree → List DriveFile
  | .node fs subs => fs ++ (if recursive then getAllFilesL recursive subs else [])

/-- Traversal of a subfolder list for `getAllFiles`. -/
def getAllFilesL (recursive : Bool) : List FolderTree → List DriveFile
  | [] => []
  | t :: ts => getAllFiles recursive t ++ getAllFilesL recursive ts

end

/-- The `matchingFiles` dedup-and-push of `findFilesBySubstring`: append the
file unless one with the same id was already collected. -/
def dedupStep (acc : List DriveFile) (f : DriveFile) : List DriveFile :=
  if acc.any (fun g => g.id == f.id) then acc else acc ++ [f]

/-- The body of the inner `for (const file of allFiles)` loop of
`findFilesBySubstring`: test the name by `searchType`, then the MIME
filter, then dedup-and-push. -/
def scanStep (st : SearchType) (mimeTypes : Option (List String)) (sub : String)
    (acc : List DriveFile) (f : DriveFile) : List DriveFile :=
  if matchName st f.name sub then
    if mimeOk mimeTypes f then dedupStep acc f else acc
  else acc

/-- `DriveManager.findFilesBySubstring` (src/unnamed/part_000 lines 144-223):
outer loop over the substrings in the order given, inner loop over all
collected files, appending each matching file not already collected (dedup
by id).  This variant always returns the list of matches. -/
def findFilesBySubstring (tree : FolderTree) (substrings : List String)
    (recursive : Bool) (mimeTypes : Option (List String)) (st : SearchType) :
    List DriveFile :=
  let allFiles := getAllFiles recursive tree
  substrings.foldl (fun acc sub => allFiles.foldl (scanStep st mimeTypes sub) acc) []

/-- The return value of the src/DriveManager.js variant of
`findFilesBySubstring`: a bare `File` when exactly one file matched,
otherwise the array of matches. -/
inductive FindResult where
  | single (f : DriveFile)
  | many (fs : List DriveFile)
  deriving DecidableEq, Repr

/-- Whether the src/DriveManager.js variant returned a list. -/
def FindResult.isList : FindResult → Bool
  | .single _ => false
  | .many _ => true

/-- `DriveManager.findFilesBySubstring` (src/DriveManager.js lines 213-292):
same collection loop, but `return matchingFiles[0]` when the match list has
exactly one element. -/
def findFilesBySubstringDM (tree : FolderTree) (substrings : List String)
    (recursive : Bool) (mimeTypes : Option (List String)) (st : SearchType) :
    FindResult :=
  match findFilesBySubstring tree substrings recursive mimeTypes st with
  | [m] => .single m
  | ms => .many ms

/-- Spec-side helper: keep the first occurrence of each file id. -/
def dedupById (l : List DriveFile) : List DriveFile :=
  l.foldl dedupStep []

/-- One element of `studentResults` in
`PDFMerger.mergePDFsForAllStudents`.  The success path spreads
`{student, sourceFolderId, outputFolderId}` with the result of
`mergePDFsFromPrefixSheet`; failure reports carry only student and message. -/
structure StudentReport where
  student : String
  success : Bool
  message : String
  sourceFolderId : Option String
  outputFolderId : Option String
  deriving DecidableEq, Repr

/-- The body of the student loop of `PDFMerger.mergePDFsForAllStudents`
(src/unnamed/part_004 lines 994-1045) for the row at (0-based) index
`rowIdx`.  External collaborators are passed as oracles:
`folderOk` says whether `DriveApp.getFolderById` succeeds on an id and
`folderErrMsg` gives the thrown message otherwise; `createFolderInParent`
stands for `DriveManager.createFolderInParentFolder` (called in the source
but defined nowhere under src/), returning the merged-PDFs folder id; and
`runPrefixSheet` stands for `mergePDFsFromPrefixSheet`, which catches its
own errors and always returns a `{success, message}` result object. -/
def studentRowReport (folderOk : String → Bool) (folderErrMsg : String → String)
    (createFolderInParent : String → String → String)
    (runPrefixSheet : String → String → Bool → Bool × String)
    (destinationFolderId : String) (recursive : Bool)
    (rowIdx : Nat) (row : List String) : StudentReport :=
  let studentName := row.getD 0 ""
  let sourceFolderId := row.getD 2 ""
  let destinationFolderName := row.getD 3 ""
  if sourceFolderId == "" then
    { student := if studentName == "" then "Row " ++ toString (rowIdx + 1) else studentName,
      success := false, message := "No folder ID found for this student.",
      sourceFolderId := none, outputFolderId := none }
  else if !folderOk sourceFolderId then
    { student := studentName, success := false,
      message := "Error: " ++ folderErrMsg sourceFolderId,
      sourceFolderId := none, outputFolderId := none }
  else if !folderOk destinationFolderId then
    { student := studentName, success := false,
      message := "Error: " ++ folderErrMsg destinationFolderId,
      sourceFolderId := none, outputFolderId := none }
  else
    let mergedName := if destinationFolderName == "" then "MergedPDFs" else destinationFolderName
    let outFolderId := createFolderInParent destinationFolderId mergedName
    let r := runPrefixSheet sourceFolderId outFolderId recursive
    { student := studentName, success := r.1, message := r.2,
      sourceFolderId := some sourceFolderId, outputFolderId := some outFolderId }

/-- The `for (let row = 3; ...)` loop of `mergePDFsForAllStudents`, indexed
by the absolute row number. -/
def studentLoop (folderOk : String → Bool) (folderErrMsg : String → String)
    (createFolderInParent : String → String → String)
    (runPrefixSheet : String → String → Bool → Bool × String)
    (destinationFolderId : String) (recursive : Bool) :
    Nat → List (List String) → List StudentReport
  | _, [] => []
  | r, row :: rest =>
    studentRowReport folderOk folderErrMsg createFolderInParent runPrefixSheet
        destinationFolderId recursive r row ::
      studentLoop folderOk folderErrMsg createFolderInParent runPrefixSheet
        destinationFolderId recursive (r + 1) rest

/-- The overall return object of `mergePDFsForAllStudents`. -/
structure AllStudentsOutcome where
  success : Bool
  message : String
  studentResults : List StudentReport
  deriving DecidableEq, Repr

/-- `PDFMerger.mergePDFsForAllStudents` (singleton variant,
src/unnamed/part_004 lines 980-1059): skip the first three rows of the
student grid, produce one report per remaining row (missing source-folder
ids and per-student exceptions become failure reports without aborting the
loop), and wrap the reports. -/
def mergePDFsForAllStudents (folderOk : String → Bool) (folderErrMsg : String → String)
    (createFolderInParent : String → String → String)
    (runPrefixSheet : String → String → Bool → Bool × String)
    (studentData : List (List String)) (destinationFolderId : String)
    (recursive : Bool) : AllStudentsOutcome :=
  let results := studentLoop folderOk folderErrMsg createFolderInParent runPrefixSheet
    destinationFolderId recursive 3 (studentData.drop 3)
  { success := true,
    message := "Processed PDF merges for " ++ toString results.length ++ " students.",
    studentResults := results }

/-! ### Concrete fixtures used by witness and counterexample theorems -/

/-- Decode oracle that always succeeds. -/
def allOkD : DriveFile → Bool := fun _ => true

/-- Save oracle that always succeeds. -/
def allOkS : List Nat → Bool := fun _ => true

/-- A PDF file fixture. -/
def mkPdf (i : Nat) (nm : String) (pgs : List Nat) : DriveFile :=
  ⟨i, nm, "application/pdf", pgs⟩

/-- An empty Drive. -/
def emptyDrive : Drive := ⟨[], 0⟩

/-- Two-file fixture for the C1 witness. -/
def w1files : List DriveFile := [mkPdf 0 "a.pdf" [0, 1], mkPdf 1 "b.pdf" [2]]

/-- Five-file fixture for the C2 witness. -/
def w2files : List DriveFile :=
  [mkPdf 0 "a.pdf" [0, 1], mkPdf 1 "b.pdf" [2], mkPdf 2 "c.pdf" [3, 4],
   mkPdf 3 "d.pdf" [5], mkPdf 4 "e.pdf" [6]]

/-- Six valid files: above the spec's claimed batching threshold of 5, at or
below the code's actual threshold of 10 (C3 counterexample). -/
def c3six : List DriveFile :=
  [mkPdf 0 "f0.pdf" [0], mkPdf 1 "f1.pdf" [1], mkPdf 2 "f2.pdf" [2],
   mkPdf 3 "f3.pdf" [3], mkPdf 4 "f4.pdf" [4], mkPdf 5 "f5.pdf" [5]]

/-- Eleven valid files: above the code's batching threshold of 10 (C3
amended-claim witness). -/
def c3eleven : List DriveFile :=
  [mkPdf 0 "f0.pdf" [0], mkPdf 1 "f1.pdf" [1], mkPdf 2 "f2.pdf" [2],
   mkPdf 3 "f3.pdf" [3], mkPdf 4 "f4.pdf" [4], mkPdf 5 "f5.pdf" [5],
   mkPdf 6 "f6.pdf" [6], mkPdf 7 "f7.pdf" [7], mkPdf 8 "f8.pdf" [8],
   mkPdf 9 "f9.pdf" [9], mkPdf 10 "f10.pdf" [10]]

/-- Drive fixture for the C4 witness: one PDF source file. -/
def c4drive : Drive := ⟨[⟨"src", mkPdf 0 "orig.pdf" [4, 5], false⟩], 1⟩

/-- C5 witness files. -/
def c5a : DriveFile := mkPdf 0 "a.pdf" [0, 1]

/-- C5 witness files. -/
def c5b : DriveFile := mkPdf 1 "b.pdf" [2]

/-- C5 witness files. -/
def c5c : DriveFile := mkPdf 2 "c.pdf" [3]

/-- Decode oracle for the C5 witness: fails exactly on the middle file. -/
def c5decode : DriveFile → Bool := fun f => !(f.id == 1)

/-- Three-file fixture for the C6 witness (batch size 1 forces batching). -/
def c6files : List DriveFile :=
  [mkPdf 0 "a.pdf" [0], mkPdf 1 "b.pdf" [1], mkPdf 2 "c.pdf" [2]]

/-- The Drive state left by the C6 witness run (three files, batch size 1). -/
def c6drive : Drive :=
  (processPDFsInBatchesSt allOkD allOkS 1 c6files "root" emptyDrive).2.1

/-- The first entry created by the C6 witness run. -/
def c6entry : FEntry :=
  (c6drive.entries.drop emptyDrive.entries.length).headD ⟨"", mkPdf 0 "" [], false⟩

/-- C7 fixture files. -/
def appleF : DriveFile := mkPdf 0 "Apple.pdf" []

/-- C7 fixture files. -/
def bananaF : DriveFile := mkPdf 1 "Banana.pdf" []

/-- C7 fixture files. -/
def cherryF : DriveFile := mkPdf 2 "Cherry.pdf" []

/-- The container of the spec's FileMatcher example. -/
def c7tree : FolderTree := .node [appleF, bananaF, cherryF] []

/-- A container in which exactly one file matches (C7 counterexample). -/
def c7single : FolderTree := .node [appleF, bananaF, cherryF] []

/-- Student grid for the C8 witness: three header rows, then Alice, Bob
(no source-folder id) and Carol. -/
def c8data : List (List String) :=
  [["Name", "UserId", "Folder", "DestName"], [""], [""],
   ["Alice", "u1", "folderA", ""],
   ["Bob", "u2", "", ""],
   ["Carol", "u3", "folderC", ""]]

/-- Folder oracle for the C8 witness: every non-empty id resolves. -/
def c8folderOk : String → Bool := fun s => !(s == "")

/-- Error-message oracle for the C8 witness. -/
def c8errMsg : String → String := fun _ => "Folder not found"

/-- Folder-creation oracle for the C8 witness. -/
def c8mkFolder : String → String → String := fun _ nm => nm

/-- Category-merge oracle for the C8 witness. -/
def c8runSheet : String → String → Bool → Bool × String :=
  fun _ _ _ => (true, "Processed 1 categories from the prefixes sheet.")

/-- Drive fixture for the C9 witness: a source file and an existing
same-named file in the destination folder. -/
def c9drive : Drive :=
  ⟨[⟨"src", mkPdf 0 "orig.pdf" [7], false⟩, ⟨"dst", mkPdf 1 "out.pdf" [9], false⟩], 2⟩

/-! ### Validation lemmas -/

theorem validateStep_go (resolve : Nat → Except String DriveFile) :
    ∀ (items : List Item) (v : List DriveFile) (iv : List InvalidEntry),
      items.foldl (validateStep resolve) (v, iv) =
        (v ++ items.filterMap (validOf resolve),
         iv ++ items.filterMap (invalidOf resolve)) := by
  intro items
  induction items with
  | nil => intro v iv; simp
  | cons it rest ih =>
    intro v iv
    cases it with
    | byId i =>
      cases hr : resolve i with
      | error msg =>
        simp [validateStep, validOf, invalidOf, resolveItem, hr, Except.toOption, ih]
      | ok f =>
        cases hp : isPdf f with
        | true =>
          simp [validateStep, validOf, invalidOf, resolveItem, hr, hp, Except.toOption, ih]
        | false =>
          simp [validateStep, validOf, invalidOf, resolveItem, hr, hp, Except.toOption, ih]
    | byFile f =>
      cases hp : isPdf f with
      | true => simp [validateStep, validOf, invalidOf, resolveItem, hp, ih]
      | false => simp [validateStep, validOf, invalidOf, resolveItem, hp, ih]
    | other => simp [validateStep, validOf, invalidOf, resolveItem, List.filterMap_cons, ih]

theorem validOf_partition_length (resolve : Nat → Except String DriveFile) :
    ∀ items : List Item,
      (items.filterMap (validOf resolve)).length
          + (items.filterMap (invalidOf resolve)).length = items.length := by
  intro items
  induction items with
  | nil => simp
  | cons it rest ih =>
    cases it with
    | byId i =>
      cases hr : resolve i with
      | error msg =>
        simp only [List.filterMap_cons, validOf, invalidOf, resolveItem, hr,
          Except.toOption, List.length_cons, List.length]
        omega
      | ok f =>
        cases hp : isPdf f with
        | true =>
          simp only [List.filterMap_cons, validOf, invalidOf, resolveItem, hr, hp,
            Except.toOption, if_true, List.length_cons]
          omega
        | false =>
          simp only [List.filterMap_cons, validOf, invalidOf, resolveItem, hr, hp,
            Except.toOption, if_false, List.length_cons, Bool.false_eq_true]
          omega
    | byFile f =>
      cases hp : isPdf f with
      | true =>
        simp only [List.filterMap_cons, validOf, invalidOf, resolveItem, hp, if_true,
          List.length_cons]
        omega
      | false =>
        simp only [List.filterMap_cons, validOf, invalidOf, resolveItem, hp, if_false,
          List.length_cons, Bool.false_eq_true]
        omega
    | other =>
      simp only [List.filterMap_cons, validOf, invalidOf, resolveItem, List.length_cons]
      omega

/-- C10: `validateFiles` partitions its input.  Each item lands in exactly
one of `validFiles` or `invalidFiles` (so the two lengths sum to the input
length), relative order is preserved within each list (both are
`filterMap`s of the input), `validFiles` holds precisely the items that
resolve to a file of MIME type application/pdf, and an unresolvable item is
recorded in `invalidFiles` with the thrown error message instead of
aborting validation (the function is total). -/
theorem C10_validateFiles_partition (resolve : Nat → Except String DriveFile)
    (items : List Item) :
    validateFiles resolve items =
        (items.filterMap (validOf resolve), items.filterMap (invalidOf resolve)) ∧
      (validateFiles resolve items).1.length + (validateFiles resolve items).2.length
        = items.length := by
  have h := validateStep_go resolve items [] []
  constructor
  · simpa [validateFiles] using h
  · simp only [validateFiles, h, List.nil_append]
    exact validOf_partition_length resolve items

/-! ### Page-concatenation lemmas -/

theorem pageStep_fold_ok (decodeOk : DriveFile → Bool) :
    ∀ files : List DriveFile, (∀ f ∈ files, decodeOk f = true) →
      ∀ acc : List Nat × List String,
        files.foldl (pageStep decodeOk) acc =
          (acc.1 ++ (files.map (fun f => f.pages)).flatten, acc.2) := by
  intro files
  induction files with
  | nil => intro _ acc; simp
  | cons f rest ih =>
    intro h acc
    have hf : decodeOk f = true := h f (by simp)
    have hr : ∀ g ∈ rest, decodeOk g = true := fun g hg => h g (by simp [hg])
    simp [pageStep, hf, ih hr, List.append_assoc]

theorem mergePages_ok (decodeOk : DriveFile → Bool) (files : List DriveFile)
    (h : ∀ f ∈ files, decodeOk f = true) :
    mergePages decodeOk files = ((files.map (fun f => f.pages)).flatten, []) := by
  simpa [mergePages] using pageStep_fold_ok decodeOk files h ([], [])

/-- C1: merging N valid page-bearing inputs yields one output whose page
sequence is exactly the concatenation of the inputs' page lists in input
order (hence Σpi pages, intra-document order 0..pageCount-1 preserved, no
reordering, deduplication or page filtering). -/
theorem C1_merge_concatenates (decodeOk : DriveFile → Bool) (saveOk : List Nat → Bool)
    (files : List DriveFile)
    (hd : ∀ f ∈ files, decodeOk f = true) (hs : ∀ p, saveOk p = true) :
    (mergeMultiplePdfFiles decodeOk saveOk files).1 =
        .ok ⟨(files.map (fun f => f.pages)).flatten⟩ ∧
      ((files.map (fun f => f.pages)).flatten).length
        = (files.map (fun f => f.pages.length)).sum := by
  refine ⟨?_, ?_⟩
  · simp [mergeMultiplePdfFiles, mergePages_ok decodeOk files hd, hs]
  · simp only [List.length_flatten, List.map_map]
    rfl

/-- Witness for C1 at a concrete two-file input: the pages of `a.pdf` then
those of `b.pdf`. -/
theorem C1_merge_concatenates_witness :
    (mergeMultiplePdfFiles allOkD allOkS w1files).1 = .ok ⟨[0, 1, 2]⟩ := by
  have h := C1_merge_concatenates allOkD allOkS w1files (by intro f _; rfl) (fun _ => rfl)
  rw [h.1]
  rfl

/-! ### Batching lemmas -/

theorem chunkFuel_flatten (B : Nat) :
    ∀ (n : Nat) (l : List DriveFile), l.length ≤ n → (chunkFuel B n l).flatten = l := by
  intro n
  induction n with
  | zero =>
    intro l hl
    have : l = [] := List.length_eq_zero.mp (Nat.le_zero.mp hl)
    subst this
    simp [chunkFuel]
  | succ n ih =>
    intro l hl
    match l with
    | [] => simp [chunkFuel]
    | f :: rest =>
      rw [chunkFuel]
      simp only [List.flatten_cons]
      rw [ih (rest.drop (B - 1)) (by simp at hl ⊢; omega)]
      simp [List.take_append_drop]

theorem chunkFiles_flatten (B : Nat) (l : List DriveFile) :
    (chunkFiles B l).flatten = l :=
  chunkFuel_flatten B l.length l le_rfl

theorem mergeMultiplePdfFiles_ok (decodeOk : DriveFile → Bool) (saveOk : List Nat → Bool)
    (hd : ∀ f, decodeOk f = true) (hs : ∀ p, saveOk p = true) (files : List DriveFile) :
    mergeMultiplePdfFiles decodeOk saveOk files =
      (.ok ⟨(files.map (fun f => f.pages)).flatten⟩, []) := by
  simp [mergeMultiplePdfFiles, mergePages_ok decodeOk files (fun f _ => hd f), hs]

theorem tempsSpec_pages (total : Nat) :
    ∀ (bs : List (List DriveFile)) (i n : Nat),
      (tempsSpec total i n bs).map (fun t => t.pages) =
        bs.map (fun b => (b.map (fun f => f.pages)).flatten) := by
  intro bs
  induction bs with
  | nil => intro i n; simp [tempsSpec]
  | cons b bs ih => intro i n; simp [tempsSpec, ih]

theorem tempsSpec_length (total : Nat) :
    ∀ (bs : List (List DriveFile)) (i n : Nat), (tempsSpec total i n bs).length = bs.length := by
  intro bs
  induction bs with
  | nil => intro i n; simp [tempsSpec]
  | cons b bs ih => intro i n; simp [tempsSpec, ih]

theorem flatten_map_flatten (g : DriveFile → List Nat) :
    ∀ bs : List (List DriveFile),
      (bs.map (fun b => (b.map g).flatten)).flatten = ((bs.flatten).map g).flatten := by
  intro bs
  induction bs with
  | nil => simp
  | cons b bs ih => simp [ih]

theorem batchLoop_ok (decodeOk : DriveFile → Bool) (saveOk : List Nat → Bool)
    (tp : String) (total : Nat)
    (hd : ∀ f, decodeOk f = true) (hs : ∀ p, saveOk p = true) :
    ∀ (bs : List (List DriveFile)) (i : Nat) (temps : List DriveFile)
      (log : List String) (d : Drive),
      batchLoop decodeOk saveOk tp total bs i temps log d =
        (.ok (temps ++ tempsSpec total i d.nextId bs),
         ⟨d.entries ++ (tempsSpec total i d.nextId bs).map (fun t => ⟨tp, t, false⟩),
          d.nextId + bs.length⟩,
         log) := by
  intro bs
  induction bs with
  | nil => intro i temps log d; simp [batchLoop, tempsSpec]
  | cons b bs ih =>
    intro i temps log d
    rw [batchLoop, mergeMultiplePdfFiles_ok decodeOk saveOk hd hs b]
    simp only [Drive.createFile, ih, tempsSpec, List.append_assoc, List.singleton_append,
      List.map_cons, List.cons_append, List.length_cons, List.nil_append, List.append_nil]
    have harith : d.nextId + 1 + bs.length = d.nextId + (bs.length + 1) := by omega
    rw [harith]

/-- Page-sequence result of `processPDFsInBatches` when every decode and
every save succeeds: the concatenation of all input pages, independently of
the batch size. -/
theorem processPDFsInBatchesSt_data_ok (decodeOk : DriveFile → Bool)
    (saveOk : List Nat → Bool) (B : Nat) (files : List DriveFile) (tp : String)
    (d : Drive) (hd : ∀ f, decodeOk f = true) (hs : ∀ p, saveOk p = true) :
    (processPDFsInBatchesSt decodeOk saveOk B files tp d).1 =
      .ok ⟨(files.map (fun f => f.pages)).flatten⟩ := by
  unfold processPDFsInBatchesSt
  by_cases hle : files.length ≤ B
  · simp [hle, mergeMultiplePdfFiles_ok decodeOk saveOk hd hs]
  · simp only [hle, if_false]
    rw [batchLoop_ok decodeOk saveOk tp _ hd hs (chunkFiles B files) 1 [] [] d]
    simp only [List.nil_append]
    rw [mergeMultiplePdfFiles_ok decodeOk saveOk hd hs]
    simp [tempsSpec_pages, flatten_map_flatten, chunkFiles_flatten]

/-- C2: merging with batching (any batch size B ≥ 1) and merging without
batching produce identical page sequences for any list of valid,
decodable input files: batch boundaries never change the concatenation
order. -/
theorem C2_batching_transparent (decodeOk : DriveFile → Bool) (saveOk : List Nat → Bool)
    (B : Nat) (files : List DriveFile) (tp : String) (d : Drive)
    (hd : ∀ f, decodeOk f = true) (hs : ∀ p, saveOk p = true)
    (hB : 1 ≤ B) (hN : 2 ≤ files.length) :
    (processPDFsInBatchesSt decodeOk saveOk B files tp d).1 =
      (mergeMultiplePdfFiles decodeOk saveOk files).1 := by
  rw [processPDFsInBatchesSt_data_ok decodeOk saveOk B files tp d hd hs,
    mergeMultiplePdfFiles_ok decodeOk saveOk hd hs files]

/-- Witness for C2: batch size 2 over five one-page files equals the direct
merge. -/
theorem C2_batching_transparent_witness :
    (processPDFsInBatchesSt allOkD allOkS 2 w2files "root" emptyDrive).1 =
      (mergeMultiplePdfFiles allOkD allOkS w2files).1 :=
  C2_batching_transparent allOkD allOkS 2 w2files "root" emptyDrive
    (fun _ => rfl) (fun _ => rfl) (by decide) (by decide)

/-! ### Trash-cleanup lemmas -/

theorem trashAll_entries :
    ∀ (fs : List DriveFile) (d : Drive),
      (trashAll fs d).entries =
        d.entries.map (fun e =>
          if fs.any (fun f => e.file.id == f.id) then { e with trashed := true } else e) := by
  intro fs
  induction fs with
  | nil =>
    intro d
    simp [trashAll]
  | cons f fs ih =>
    intro d
    have step : trashAll (f :: fs) d = trashAll fs (trashFile d f.id) := rfl
    rw [step, ih, trashFile, List.map_map]
    apply List.map_congr_left
    intro e _
    by_cases h : (e.file.id == f.id) = true
    · simp only [Function.comp, h, if_true, List.any_cons]
      by_cases h2 : (fs.any (fun g => e.file.id == g.id)) = true <;> simp [h, h2]
    · simp only [Function.comp, h, if_false, List.any_cons]
      simp only [Bool.not_eq_true] at h
      simp [h]

theorem batchLoop_shape (decodeOk : DriveFile → Bool) (saveOk : List Nat → Bool)
    (tp : String) (total : Nat) :
    ∀ (bs : List (List DriveFile)) (i : Nat) (temps : List DriveFile)
      (log : List String) (d : Drive) (base : List FEntry),
      d.entries = base ++ temps.map (fun t => (⟨tp, t, false⟩ : FEntry)) →
      (∃ msg d' lg, batchLoop decodeOk saveOk tp total bs i temps log d = (.error msg, d', lg) ∧
          ∀ e ∈ d'.entries.drop base.length, e.trashed = true) ∨
      (∃ ts d' lg, batchLoop decodeOk saveOk tp total bs i temps log d = (.ok ts, d', lg) ∧
          d'.entries = base ++ ts.map (fun t => (⟨tp, t, false⟩ : FEntry))) := by
  intro bs
  induction bs with
  | nil =>
    intro i temps log d base hb
    right
    exact ⟨temps, d, log, rfl, hb⟩
  | cons b bs ih =>
    intro i temps log d base hb
    rw [batchLoop]
    cases hm : mergeMultiplePdfFiles decodeOk saveOk b with
    | mk r lg' =>
      cases r with
      | error msg =>
        left
        refine ⟨msg, trashAll temps d, log ++ lg', rfl, ?_⟩
        intro e he
        rw [trashAll_entries, hb, List.map_append] at he
        rw [show base.length = (base.map (fun e =>
            if temps.any (fun f => e.file.id == f.id) then { e with trashed := true } else e)).length
          from (List.length_map _ _).symm, List.drop_left] at he
        simp only [List.map_map, List.mem_map] at he
        obtain ⟨t, ht, rfl⟩ := he
        have hany : temps.any (fun f => t.id == f.id) = true :=
          List.any_eq_true.mpr ⟨t, ht, by simp⟩
        simp [Function.comp, hany]
      | ok data =>
        have hb' : (d.createFile tp (tempName i total) "application/pdf" data.pages).2.entries =
            base ++ (temps ++ [(d.createFile tp (tempName i total)
              "application/pdf" data.pages).1]).map (fun t => (⟨tp, t, false⟩ : FEntry)) := by
          simp [Drive.createFile, hb]
        exact ih (i + 1) _ (log ++ lg') _ base hb'

/-- C6: every temporary batch file created during a batched merge is trashed
before `processPDFsInBatches` returns.  For any oracles (so on the success
path and on every failure path, including a failing final merge), every
Drive entry created during the call is marked trashed in the final state. -/
theorem C6_temp_cleanup (decodeOk : DriveFile → Bool) (saveOk : List Nat → Bool)
    (B : Nat) (files : List DriveFile) (tp : String) (d : Drive) :
    ∀ e ∈ ((processPDFsInBatchesSt decodeOk saveOk B files tp d).2.1.entries.drop
        d.entries.length), e.trashed = true := by
  intro e he
  unfold processPDFsInBatchesSt at he
  by_cases hle : files.length ≤ B
  · simp [hle, List.drop_length] at he
  · simp only [hle, if_false] at he
    rcases batchLoop_shape decodeOk saveOk tp ((files.length + B - 1) / B)
        (chunkFiles B files) 1 [] [] d d.entries (by simp) with
      ⟨msg, d', lg, heq, hall⟩ | ⟨ts, d', lg, heq, hent⟩
    · rw [heq] at he
      exact hall e he
    · rw [heq] at he
      simp only at he
      rw [trashAll_entries, hent, List.map_append] at he
      rw [show d.entries.length = (d.entries.map (fun e =>
          if ts.any (fun f => e.file.id == f.id) then { e with trashed := true } else e)).length
        from (List.length_map _ _).symm, List.drop_left] at he
      simp only [List.map_map, List.mem_map] at he
      obtain ⟨t, ht, rfl⟩ := he
      have hany : ts.any (fun f => t.id == f.id) = true :=
        List.any_eq_true.mpr ⟨t, ht, by simp⟩
      simp [Function.comp, hany]

/-- Witness for C6: the first temporary created by a concrete batched run
(three files, batch size 1) is trashed in the final Drive state. -/
theorem C6_temp_cleanup_witness : c6entry.trashed = true :=
  C6_temp_cleanup allOkD allOkS 1 c6files "root" emptyDrive c6entry (by decide)

/-! ### File-matching lemmas -/

theorem scanStep_fold (st : SearchType) (mt : Option (List String)) (sub : String) :
    ∀ (files : List DriveFile) (acc : List DriveFile),
      files.foldl (scanStep st mt sub) acc =
        (files.filter (fileMatches st mt sub)).foldl dedupStep acc := by
  intro files
  induction files with
  | nil => intro acc; simp
  | cons f fs ih =>
    intro acc
    cases hmn : matchName st f.name sub with
    | false =>
      have h : fileMatches st mt sub f = false := by simp [fileMatches, hmn]
      simp [scanStep, hmn, List.filter_cons, h, ih]
    | true =>
      cases hmo : mimeOk mt f with
      | false =>
        have h : fileMatches st mt sub f = false := by simp [fileMatches, hmn, hmo]
        simp [scanStep, hmn, hmo, List.filter_cons, h, ih]
      | true =>
        have h : fileMatches st mt sub f = true := by simp [fileMatches, hmn, hmo]
        simp [scanStep, hmn, hmo, List.filter_cons, h, ih]

theorem foldl_flatten_dedup :
    ∀ (L : List (List DriveFile)) (acc : List DriveFile),
      L.foldl (fun acc l => l.foldl dedupStep acc) acc = L.flatten.foldl dedupStep acc := by
  intro L
  induction L with
  | nil => intro acc; simp
  | cons l L ih => intro acc; simp [List.foldl_append, ih]

theorem findFilesBySubstring_eq (tree : FolderTree) (substrings : List String)
    (recursive : Bool) (mt : Option (List String)) (st : SearchType) :
    findFilesBySubstring tree substrings recursive mt st =
      dedupById ((substrings.map (fun sub =>
        (getAllFiles recursive tree).filter (fileMatches st mt sub))).flatten) := by
  unfold findFilesBySubstring dedupById
  dsimp only
  have hfun : (fun (acc : List DriveFile) sub =>
      (getAllFiles recursive tree).foldl (scanStep st mt sub) acc) =
      (fun (acc : List DriveFile) sub =>
        ((getAllFiles recursive tree).filter (fileMatches st mt sub)).foldl dedupStep acc) := by
    funext acc sub
    exact scanStep_fold st mt sub (getAllFiles recursive tree) acc
  rw [hfun, ← foldl_flatten_dedup, List.foldl_map]

theorem dedupStep_fold_nodup :
    ∀ (l acc : List DriveFile), (acc.map (fun f => f.id)).Nodup →
      ((l.foldl dedupStep acc).map (fun f => f.id)).Nodup := by
  intro l
  induction l with
  | nil => intro acc h; simpa using h
  | cons f fs ih =>
    intro acc h
    cases hmem : acc.any (fun g => g.id == f.id) with
    | true => simpa [dedupStep, hmem] using ih acc h
    | false =>
      have hnot : ∀ g ∈ acc, ¬(g.id = f.id) := by
        intro g hg
        have := List.any_eq_false.mp hmem g hg
        simpa using this
      have hacc : ((acc ++ [f]).map (fun f => f.id)).Nodup := by
        rw [List.map_append]
        rw [List.nodup_append]
        refine ⟨h, by simp, ?_⟩
        intro x hx
        simp only [List.mem_map] at hx
        obtain ⟨g, hg, rfl⟩ := hx
        simp only [List.map_cons, List.map_nil, List.mem_singleton]
        exact fun hx2 => hnot g hg hx2
      simpa [dedupStep, hmem] using ih (acc ++ [f]) hacc

theorem dedupById_nodup (l : List DriveFile) :
    ((dedupById l).map (fun f => f.id)).Nodup :=
  dedupStep_fold_nodup l [] (by simp)

/-- C7 (amended): `findFilesBySubstring` computes the id-deduplicated
concatenation, over the substrings in the order given, of the matching
files in discovery order (first conjunct), so its result never repeats an
id (second conjunct); on the spec's Apple/Banana/Cherry example with
mode=prefix and substrings ["A", "B"] both repository variants return
[Apple.pdf, Banana.pdf] in that order (last conjuncts).  The amendment
forced by the counterexample: the src/DriveManager.js variant returns the
bare single descriptor, not a one-element list, when exactly one file
matches; the src/unnamed/part_000 variant always returns the list. -/
theorem C7_findFiles_contract :
    (∀ (tree : FolderTree) (substrings : List String) (recursive : Bool)
        (mt : Option (List String)) (st : SearchType),
      findFilesBySubstring tree substrings recursive mt st =
        dedupById ((substrings.map (fun sub =>
          (getAllFiles recursive tree).filter (fileMatches st mt sub))).flatten)) ∧
    (∀ (tree : FolderTree) (substrings : List String) (recursive : Bool)
        (mt : Option (List String)) (st : SearchType),
      ((findFilesBySubstring tree substrings recursive mt st).map (fun f => f.id)).Nodup) ∧
    findFilesBySubstring c7tree ["A", "B"] false none .pfx = [appleF, bananaF] ∧
    findFilesBySubstringDM c7tree ["A", "B"] false none .pfx = .many [appleF, bananaF] := by
  refine ⟨findFilesBySubstring_eq, ?_, ?_, ?_⟩
  · intro tree substrings recursive mt st
    rw [findFilesBySubstring_eq]
    exact dedupById_nodup _
  · decide
  · decide

/-- Counterexample for C7: with exactly one matching file the
src/DriveManager.js variant of `findFilesBySubstring` returns a bare file
object (`FindResult.single`), not a list of descriptors. -/
theorem C7_findFiles_counterexample :
    findFilesBySubstringDM c7single ["A"] false none .pfx = .single appleF := by
  decide

/-! ### Student-coordinator lemmas -/

theorem studentLoop_length (fo : String → Bool) (fe : String → String)
    (cf : String → String → String) (rp : String → String → Bool → Bool × String)
    (dest : String) (rec : Bool) :
    ∀ (rows : List (List String)) (r : Nat),
      (studentLoop fo fe cf rp dest rec r rows).length = rows.length := by
  intro rows
  induction rows with
  | nil => intro r; simp [studentLoop]
  | cons row rest ih => intro r; simp [studentLoop, ih]

theorem studentLoop_get (fo : String → Bool) (fe : String → String)
    (cf : String → String → String) (rp : String → String → Bool → Bool × String)
    (dest : String) (rec : Bool) :
    ∀ (rows : List (List String)) (r k : Nat),
      (studentLoop fo fe cf rp dest rec r rows)[k]? =
        (rows[k]?).map (studentRowReport fo fe cf rp dest rec (r + k)) := by
  intro rows
  induction rows with
  | nil => intro r k; simp [studentLoop]
  | cons row rest ih =>
    intro r k
    cases k with
    | zero => simp [studentLoop]
    | succ k =>
      have : r + (k + 1) = (r + 1) + k := by omega
      simp [studentLoop, ih, this]

/-- C8: the coordinator produces one report per processed row, in row
order, with no short-circuit.  First conjunct: exactly one report per row
after the three skipped header rows.  Second conjunct: a row with an empty
source-container field yields a failed report with the "No folder ID found
for this student." message (and the loop having a report at every index
shows processing continued).  Third conjunct: a row whose source-folder id
fails to resolve (the exception site inside a student's try block) yields a
failed report carrying the caught message, again without aborting the
loop. -/
theorem C8_one_report_per_row (fo : String → Bool) (fe : String → String)
    (cf : String → String → String) (rp : String → String → Bool → Bool × String)
    (data : List (List String)) (dest : String) (rec : Bool) :
    ((mergePDFsForAllStudents fo fe cf rp data dest rec).studentResults.length
        = (data.drop 3).length) ∧
    (∀ (k : Nat) (row : List String), (data.drop 3)[k]? = some row → row.getD 2 "" = "" →
      (mergePDFsForAllStudents fo fe cf rp data dest rec).studentResults[k]? =
        some { student := if row.getD 0 "" = "" then "Row " ++ toString (3 + k + 1)
                          else row.getD 0 "",
               success := false, message := "No folder ID found for this student.",
               sourceFolderId := none, outputFolderId := none }) ∧
    (∀ (k : Nat) (row : List String), (data.drop 3)[k]? = some row → row.getD 2 "" ≠ "" →
        fo (row.getD 2 "") = false →
      (mergePDFsForAllStudents fo fe cf rp data dest rec).studentResults[k]? =
        some { student := row.getD 0 "", success := false,
               message := "Error: " ++ fe (row.getD 2 ""),
               sourceFolderId := none, outputFolderId := none }) := by
  refine ⟨?_, ?_, ?_⟩
  · simp [mergePDFsForAllStudents, studentLoop_length]
  · intro k row hk hempty
    simp only [mergePDFsForAllStudents]
    rw [studentLoop_get, hk]
    simp at hempty
    simp [studentRowReport, hempty]
  · intro k row hk hne hfo
    simp only [mergePDFsForAllStudents]
    rw [studentLoop_get, hk]
    simp at hne hfo
    simp [studentRowReport, hne, hfo]

/-- Witness for C8: over a grid with three header rows and rows Alice, Bob
(no source-folder id) and Carol, the second report is Bob's failure. -/
theorem C8_one_report_per_row_witness :
    (mergePDFsForAllStudents c8folderOk c8errMsg c8mkFolder c8runSheet c8data
        "dest" false).studentResults[1]? =
      some { student := "Bob", success := false,
             message := "No folder ID found for this student.",
             sourceFolderId := none, outputFolderId := none } := by
  have h := (C8_one_report_per_row c8folderOk c8errMsg c8mkFolder c8runSheet c8data
    "dest" false).2.1 1 ["Bob", "u2", "", ""] (by decide) (by decide)
  simpa using h

/-! ### Collision-policy lemmas -/

theorem trashAll_nextId :
    ∀ (fs : List DriveFile) (d : Drive), (trashAll fs d).nextId = d.nextId := by
  intro fs
  induction fs with
  | nil => intro d; rfl
  | cons f fs ih =>
    intro d
    rw [show trashAll (f :: fs) d = trashAll fs (trashFile d f.id) from rfl, ih]
    rfl

/-- C9: when the write target name already exists and replacement is
declined, `copyAndRenameFile` leaves the Drive untouched and returns the
skip signal `.ok none` — a value distinct from both success (`.ok (some _)`)
and failure (`.error _`) by constructor (first conjunct).  When replacement
is accepted the copy is written (second conjunct) and every pre-existing
same-named entry of the destination folder is trashed (third conjunct). -/
theorem C9_skip_and_replace (fid : Nat) (folderId nm : String) (f : DriveFile) (d : Drive)
    (hf : d.getFileById fid = .ok f)
    (hex : d.getFilesByName folderId nm ≠ []) :
    (copyAndRenameFile false fid folderId nm d = (.ok none, d)) ∧
    ((copyAndRenameFile true fid folderId nm d).1 =
      .ok (some ⟨d.nextId, nm, f.mimeType, f.pages⟩)) ∧
    (∀ (k : Nat), k < d.entries.length →
      ∀ e : FEntry, (copyAndRenameFile true fid folderId nm d).2.entries[k]? = some e →
        e.parent = folderId → e.file.name = nm → e.trashed = true) := by
  have hexb : (d.getFilesByName folderId nm).isEmpty = false := by
    cases hgl : d.getFilesByName folderId nm with
    | nil => exact absurd hgl hex
    | cons a l => rfl
  refine ⟨?_, ?_, ?_⟩
  · simp [copyAndRenameFile, checkAndHandleExistingFile, hf, hexb]
  · simp [copyAndRenameFile, checkAndHandleExistingFile, hf, hexb, Drive.makeCopy,
      Drive.createFile, trashAll_nextId]
  · intro k hk e he hp hn
    simp only [copyAndRenameFile, checkAndHandleExistingFile, hf, hexb, Bool.false_eq_true,
      if_false, if_true, Drive.makeCopy, Drive.createFile] at he
    rw [List.getElem?_append_left (by rw [trashAll_entries]; simpa using hk)] at he
    rw [trashAll_entries] at he
    rw [List.getElem?_map] at he
    obtain ⟨e₀, hk0, hmark⟩ := Option.map_eq_some'.mp he
    by_cases hc : ((d.getFilesByName folderId nm).any (fun g => e₀.file.id == g.id)) = true
    · rw [if_pos hc] at hmark
      rw [← hmark]
    · rw [if_neg hc] at hmark
      subst hmark
      by_contra htr
      have htr' : e₀.trashed = false := by
        cases hcase : e₀.trashed with
        | false => rfl
        | true => exact absurd hcase htr
      have hmem : e₀.file ∈ d.getFilesByName folderId nm := by
        unfold Drive.getFilesByName
        refine List.mem_map.mpr ⟨e₀, List.mem_filter.mpr ⟨?_, ?_⟩, rfl⟩
        · obtain ⟨hlt, hgl⟩ := List.getElem?_eq_some.mp hk0
          exact hgl ▸ List.getElem_mem hlt
        · simp [hp, hn, htr']
      exact hc (List.any_eq_true.mpr ⟨e₀.file, hmem, by simp⟩)

/-- Witness for C9 at a concrete Drive holding an existing `out.pdf` in the
destination folder: declining leaves the state unchanged and signals a
skip. -/
theorem C9_skip_and_replace_witness :
    copyAndRenameFile false 0 "dst" "out.pdf" c9drive = (.ok none, c9drive) :=
  (C9_skip_and_replace 0 "dst" "out.pdf" (mkPdf 0 "orig.pdf" [7]) c9drive rfl
    (by decide)).1

/-! ### mergePDFs path lemmas -/

theorem filterMap_validOf_byFile (resolve : Nat → Except String DriveFile) :
    ∀ files : List DriveFile, (∀ f ∈ files, isPdf f = true) →
      (files.map Item.byFile).filterMap (validOf resolve) = files := by
  intro files
  induction files with
  | nil => intro _; simp
  | cons f fs ih =>
    intro h
    have hf := h f (by simp)
    simp [validOf, resolveItem, hf, ih (fun g hg => h g (by simp [hg]))]

theorem filterMap_invalidOf_byFile (resolve : Nat → Except String DriveFile) :
    ∀ files : List DriveFile, (∀ f ∈ files, isPdf f = true) →
      (files.map Item.byFile).filterMap (invalidOf resolve) = [] := by
  intro files
  induction files with
  | nil => intro _; simp
  | cons f fs ih =>
    intro h
    have hf := h f (by simp)
    simp [invalidOf, hf, ih (fun g hg => h g (by simp [hg]))]

theorem validateFiles_byFile (resolve : Nat → Except String DriveFile)
    (files : List DriveFile) (h : ∀ f ∈ files, isPdf f = true) :
    validateFiles resolve (files.map Item.byFile) = (files, []) := by
  rw [validateFiles, validateStep_go]
  simp [filterMap_validOf_byFile resolve files h, filterMap_invalidOf_byFile resolve files h]

/-- C4: when validation leaves exactly one valid file, `mergePDFs` skips the
merge machinery: it copies that file into the destination container under
`outputName` (the clean-collision case of the collision policy is taken
here), returns success with the copy — which holds exactly the input's
pages — attaches the invalid inputs, produces an empty decode log, and
creates exactly one new Drive entry. -/
theorem C4_single_valid_copies (decodeOk : DriveFile → Bool) (saveOk : List Nat → Bool)
    (replaceChoice : Bool) (items : List Item) (f : DriveFile) (inv : List InvalidEntry)
    (outName dest : String) (d : Drive)
    (hval : validateFiles d.getFileById items = ([f], inv))
    (hres : d.getFileById f.id = .ok f)
    (hcol : d.getFilesByName dest outName = []) :
    mergePDFs decodeOk saveOk replaceChoice items outName (some dest) none d =
      ({ success := true,
         message := "Successfully copied the PDF file (skipped merging as only one file was found)",
         file := some (d.nextId, outName), invalidFiles := inv },
       ⟨d.entries ++ [⟨dest, ⟨d.nextId, outName, f.mimeType, f.pages⟩, false⟩], d.nextId + 1⟩,
       []) := by
  have hfil : d.entries.filter
      (fun e => e.parent == dest && e.file.name == outName && !e.trashed) = [] := by
    simp only [Drive.getFilesByName] at hcol
    exact List.map_eq_nil_iff.mp hcol
  simp only [mergePDFs, hval]
  simp only [copySinglePdfFile, effectiveFolder, copyAndRenameFile, hres,
    checkAndHandleExistingFile, hcol, List.isEmpty_nil, if_true, Drive.makeCopy,
    Drive.createFile]
  simp only [Drive.getFilesByName, List.filter_append, hfil, List.nil_append]
  simp only [List.filter_cons, beq_self_eq_true, Bool.not_false, Bool.and_self, if_true,
    List.filter_nil, List.map_cons, List.map_nil]
  cases inv with
  | nil => simp
  | cons i0 is => simp

/-- Witness for C4: a Drive with one PDF file and an unresolvable second
item; the file is copied to the destination folder under the output name. -/
theorem C4_single_valid_copies_witness :
    mergePDFs allOkD allOkS true [Item.byId 0, Item.byId 99] "Merged.pdf" (some "dst")
        none c4drive =
      ({ success := true,
         message := "Successfully copied the PDF file (skipped merging as only one file was found)",
         file := some (1, "Merged.pdf"), invalidFiles := [.err (some 99) "File not found"] },
       ⟨c4drive.entries ++ [⟨"dst", ⟨1, "Merged.pdf", "application/pdf", [4, 5]⟩, false⟩], 2⟩,
       []) := by
  have h := C4_single_valid_copies allOkD allOkS true [Item.byId 0, Item.byId 99]
    (mkPdf 0 "orig.pdf" [4, 5]) [.err (some 99) "File not found"] "Merged.pdf" "dst" c4drive
    (by decide) rfl (by decide)
  simpa using h

/-- C5: a decode failure during page concatenation is caught rather than
failing the merge: merging three valid-MIME files where exactly the middle
one fails to decode yields a successful result whose output holds exactly
the pages of the other two in original order, with an empty `invalidFiles`
(no MIME-validation failure) and the failing file recorded in the
decode-error log — a decode-level record distinct from upfront
validation. -/
theorem C5_decode_failure_best_effort (decodeOk : DriveFile → Bool) (saveOk : List Nat → Bool)
    (replaceChoice : Bool) (a b c : DriveFile) (outName : String)
    (outputFolder destinationFolder : Option String) (d : Drive)
    (ha : isPdf a = true) (hb : isPdf b = true) (hc : isPdf c = true)
    (hda : decodeOk a = true) (hdb : decodeOk b = false) (hdc : decodeOk c = true)
    (hs : ∀ p, saveOk p = true) :
    mergePDFs decodeOk saveOk replaceChoice [.byFile a, .byFile b, .byFile c] outName
        outputFolder destinationFolder d =
      ({ success := true, message := "Successfully merged " ++ toString 3 ++ " PDFs",
         file := some (d.nextId, outName), invalidFiles := [] },
       ⟨d.entries ++ [⟨(effectiveFolder outputFolder destinationFolder).getD "root",
          ⟨d.nextId, outName, "application/pdf", a.pages ++ c.pages⟩, false⟩],
        d.nextId + 1⟩,
       [b.name]) := by
  have hval : validateFiles d.getFileById [.byFile a, .byFile b, .byFile c] = ([a, b, c], []) :=
    validateFiles_byFile d.getFileById [a, b, c] (by
      intro g hg
      simp only [List.mem_cons, List.not_mem_nil, or_false] at hg
      rcases hg with rfl | rfl | rfl
      · exact ha
      · exact hb
      · exact hc)
  simp only [mergePDFs, hval]
  simp [mergeMultiplePdfFiles, mergePages, pageStep, hda, hdb, hdc, hs, byteLength,
    saveResultingPdf, Drive.createFile]

/-- Witness for C5: concrete three-file run where the middle file fails to
decode. -/
theorem C5_decode_failure_best_effort_witness :
    mergePDFs c5decode allOkS true [.byFile c5a, .byFile c5b, .byFile c5c] "Merged.pdf"
        none none emptyDrive =
      ({ success := true, message := "Successfully merged " ++ toString 3 ++ " PDFs",
         file := some (0, "Merged.pdf"), invalidFiles := [] },
       ⟨[⟨"root", ⟨0, "Merged.pdf", "application/pdf", [0, 1, 3]⟩, false⟩], 1⟩,
       ["b.pdf"]) := by
  have h := C5_decode_failure_best_effort c5decode allOkS true c5a c5b c5c "Merged.pdf"
    none none emptyDrive rfl rfl rfl rfl rfl rfl (fun _ => rfl)
  simpa using h

/-! ### Batching-threshold lemmas (C3) -/

theorem tempsSpec_id_ge (total : Nat) :
    ∀ (bs : List (List DriveFile)) (i n : Nat), ∀ t ∈ tempsSpec total i n bs, n ≤ t.id := by
  intro bs
  induction bs with
  | nil => intro i n t ht; simp [tempsSpec] at ht
  | cons b bs ih =>
    intro i n t ht
    simp only [tempsSpec, List.mem_cons] at ht
    rcases ht with rfl | ht
    · simp
    · have := ih (i + 1) (n + 1) t ht
      omega

/-- Counterexample for C3: six valid files exceed the claimed default
threshold of 5, yet the run creates exactly one new Drive entry (the merged
output) and trashes nothing — no temporary batch document was ever created,
so the inputs were not processed in batches. -/
theorem C3_threshold_counterexample :
    ((mergePDFs allOkD allOkS true (c3six.map Item.byFile) "Merged.pdf" none none
        emptyDrive).2.1.entries.length = 1) ∧
    ((mergePDFs allOkD allOkS true (c3six.map Item.byFile) "Merged.pdf" none none
        emptyDrive).2.1.entries.all (fun e => !e.trashed)) = true := by
  constructor
  · decide
  · decide

/-- C3 (amended): batching is triggered only when the count of valid files
exceeds 10 (the claim's threshold of 5 is wrong; 6-10 valid files are
merged directly, as the counterexample shows).  Above 10, the inputs are
processed in sequential batches of 5: each batch is merged into a temporary
document stored in the destination folder (or root), the set of temporary
outputs is then merged together into the output file, and every temporary
is trashed.  The equation characterises the whole successful run: the final
Drive holds the original entries, the trashed temporaries (one per batch of
`chunkFiles 5`), and the untrashed output holding all pages in order. -/
theorem C3_batching_over_ten (decodeOk : DriveFile → Bool) (saveOk : List Nat → Bool)
    (replaceChoice : Bool) (files : List DriveFile) (outName : String)
    (outputFolder destinationFolder : Option String) (d : Drive)
    (hmime : ∀ f ∈ files, isPdf f = true)
    (hn : 10 < files.length)
    (hd : ∀ f, decodeOk f = true) (hs : ∀ p, saveOk p = true)
    (hwf : ∀ e ∈ d.entries, e.file.id < d.nextId) :
    mergePDFs decodeOk saveOk replaceChoice (files.map Item.byFile) outName
        outputFolder destinationFolder d =
      ({ success := true,
         message := "Successfully merged " ++ toString files.length ++ " PDFs",
         file := some (d.nextId + (chunkFiles 5 files).length, outName),
         invalidFiles := [] },
       ⟨d.entries
          ++ (tempsSpec ((files.length + 5 - 1) / 5) 1 d.nextId (chunkFiles 5 files)).map
              (fun t => ⟨destinationFolder.getD "root", t, true⟩)
          ++ [⟨(effectiveFolder outputFolder destinationFolder).getD "root",
               ⟨d.nextId + (chunkFiles 5 files).length, outName, "application/pdf",
                (files.map (fun f => f.pages)).flatten⟩, false⟩],
        d.nextId + (chunkFiles 5 files).length + 1⟩,
       []) := by
  obtain ⟨f1, rest1, rfl⟩ : ∃ g l, files = g :: l := by
    cases files with
    | nil => simp at hn
    | cons g l => exact ⟨g, l, rfl⟩
  obtain ⟨f2, rest2, rfl⟩ : ∃ g l, rest1 = g :: l := by
    cases rest1 with
    | nil => simp at hn
    | cons g l => exact ⟨g, l, rfl⟩
  have hval : validateFiles d.getFileById ((f1 :: f2 :: rest2).map Item.byFile) =
      (f1 :: f2 :: rest2, []) :=
    validateFiles_byFile d.getFileById (f1 :: f2 :: rest2) hmime
  simp only [mergePDFs, hval]
  rw [if_pos hn]
  unfold processPDFsInBatchesSt
  rw [if_neg (by omega)]
  dsimp only
  rw [batchLoop_ok decodeOk saveOk (destinationFolder.getD "root")
    (((f1 :: f2 :: rest2).length + 5 - 1) / 5) hd hs (chunkFiles 5 (f1 :: f2 :: rest2)) 1 [] [] d]
  simp only [List.nil_append]
  rw [mergeMultiplePdfFiles_ok decodeOk saveOk hd hs]
  have hpages : ((tempsSpec (((f1 :: f2 :: rest2).length + 5 - 1) / 5) 1 d.nextId
      (chunkFiles 5 (f1 :: f2 :: rest2))).map (fun t => t.pages)).flatten =
      ((f1 :: f2 :: rest2).map (fun f => f.pages)).flatten := by
    rw [tempsSpec_pages, flatten_map_flatten, chunkFiles_flatten]
  rw [hpages]
  have hentries : ∀ dmid : Drive,
      dmid.entries = d.entries ++ (tempsSpec (((f1 :: f2 :: rest2).length + 5 - 1) / 5) 1
        d.nextId (chunkFiles 5 (f1 :: f2 :: rest2))).map
          (fun t => (⟨destinationFolder.getD "root", t, false⟩ : FEntry)) →
      (trashAll (tempsSpec (((f1 :: f2 :: rest2).length + 5 - 1) / 5) 1 d.nextId
        (chunkFiles 5 (f1 :: f2 :: rest2))) dmid).entries =
        d.entries ++ (tempsSpec (((f1 :: f2 :: rest2).length + 5 - 1) / 5) 1 d.nextId
          (chunkFiles 5 (f1 :: f2 :: rest2))).map
            (fun t => (⟨destinationFolder.getD "root", t, true⟩ : FEntry)) := by
    intro dmid hmid
    rw [trashAll_entries, hmid, List.map_append, List.map_map]
    congr 1
    · conv_rhs => rw [← List.map_id d.entries]
      apply List.map_congr_left
      intro e he
      have hnot : ¬ ((tempsSpec (((f1 :: f2 :: rest2).length + 5 - 1) / 5) 1 d.nextId
          (chunkFiles 5 (f1 :: f2 :: rest2))).any (fun f => e.file.id == f.id) = true) := by
        intro hany
        obtain ⟨t, htmem, heq⟩ := List.any_eq_true.mp hany
        have h1 : e.file.id < d.nextId := hwf e he
        have h2 : d.nextId ≤ t.id :=
          tempsSpec_id_ge (((f1 :: f2 :: rest2).length + 5 - 1) / 5)
            (chunkFiles 5 (f1 :: f2 :: rest2)) 1 d.nextId t htmem
        have h3 : e.file.id = t.id := by simpa using heq
        omega
      rw [if_neg hnot]
      rfl
    · apply List.map_congr_left
      intro t htmem
      have hany : (tempsSpec (((f1 :: f2 :: rest2).length + 5 - 1) / 5) 1 d.nextId
          (chunkFiles 5 (f1 :: f2 :: rest2))).any (fun f => t.id == f.id) = true :=
        List.any_eq_true.mpr ⟨t, htmem, by simp⟩
      simp only [Function.comp_apply, hany, if_true]
  have hent2 := hentries
    (⟨d.entries ++ (tempsSpec (((f1 :: f2 :: rest2).length + 5 - 1) / 5) 1 d.nextId
        (chunkFiles 5 (f1 :: f2 :: rest2))).map
        (fun t => (⟨destinationFolder.getD "root", t, false⟩ : FEntry)),
      d.nextId + (chunkFiles 5 (f1 :: f2 :: rest2)).length⟩ : Drive) rfl
  simp only [byteLength]
  rw [if_neg (Nat.succ_ne_zero _)]
  simp only [saveResultingPdf, Drive.createFile, trashAll_nextId, hent2, List.append_nil]

/-- Witness for the amended C3: a run over eleven concrete one-page files
is batched and succeeds. -/
theorem C3_batching_over_ten_witness :
    (mergePDFs allOkD allOkS true (c3eleven.map Item.byFile) "Merged.pdf" none none
        emptyDrive).1.success = true := by
  rw [C3_batching_over_ten allOkD allOkS true c3eleven "Merged.pdf" none none emptyDrive
    (by decide) (by decide) (fun _ => rfl) (fun _ => rfl) (by decide)]

end CW
